import Mathlib

/-!
Shallow embedding of the CrossKD GFL knowledge-distillation detector
(`mmdet/models/detectors/crosskd_gfl.py`) and of the two training
configuration files of the repository, together with theorems checking the
specification claims about them.

Modelling conventions:
* a feature tensor of shape (N, C, H, W) is represented in channel-major
  flattened form `List (List ℝ)`: one inner list per channel holding the
  N*H*W values of that channel (exactly the `(C, -1)` layout the source
  produces with `permute(1, 0, 2, 3).reshape(C, -1)`); classification score
  maps are represented in location-major form, one inner list of
  `cls_out_channels` scores per anchor location (the `(-1, C)` layout the
  source produces with `permute(0, 2, 3, 1).reshape(-1, C)`); the permute
  and reshape calls themselves are pure data movement;
* `.float()` casts are identities in the real-number model;
* conv layers, the prediction heads, anchor generation, target assignment
  and the primitive loss modules are external framework components consumed
  through documented interfaces, and are embedded as abstract function
  fields;
* machine floating point is idealised as exact real arithmetic.
-/

namespace CrossKD

noncomputable section

/-- A tensor in the flattened two-dimensional layouts described in the
module comment. -/
abbrev Tensor := List (List ℝ)

/-- Arithmetic mean of a list of reals: the per-channel
`mean(dim=-1)` of the source. -/
def listMean (l : List ℝ) : ℝ := l.sum / l.length

/-- Unbiased sample variance, matching the torch default for `std(dim=-1)`
which divides by n - 1.  Lists of length at most 1 get the junk value 0
(real division by zero) instead of NaN. -/
def listVar (l : List ℝ) : ℝ :=
  ((l.map fun x => (x - listMean l) ^ 2).sum) / ((l.length : ℝ) - 1)

/-- Standard deviation: the per-channel `std(dim=-1)` of the source. -/
def listStd (l : List ℝ) : ℝ := Real.sqrt (listVar l)

/-- The logistic sigmoid, as in `Tensor.sigmoid`. -/
def sigmoid (x : ℝ) : ℝ := 1 / (1 + Real.exp (-x))

/-- Maximum of a list of reals, as in `Tensor.max(dim=1)[0]` for one row;
the source never applies it to an empty row (`cls_out_channels` is
positive). -/
def listMax : List ℝ → ℝ
  | [] => 0
  | x :: xs => xs.foldl max x

/-- Elementwise rectified linear unit, as in `F.relu`. -/
def reluT (t : Tensor) : Tensor := t.map fun ch => ch.map fun x => max x 0

/-- One channel of `align_scale` (the body acts independently on each
channel of the `(C, -1)` reshaped tensors): normalise the student channel
by its mean and by its standard deviation plus 1e-6, then rescale with the
teacher channel statistics. -/
def alignChannel (s t : List ℝ) : List ℝ :=
  s.map fun x =>
    (x - listMean s) / (listStd s + 1 / 1000000) * listStd t + listMean t

/-- `align_scale` of the source: per-channel alignment of the student
feature statistics to the teacher ones.  The `permute`/`reshape` pair at
the start and its inverse at the end are pure layout changes in the
channel-major representation. -/
def align_scale (stu tea : Tensor) : Tensor := List.zipWith alignChannel stu tea

/-- An mmcv `ConvModule`: `conv` is the convolution (with its norm layer)
and `activate` the activation function; a plain call runs both, a call
with `activate=False` runs only `conv`. -/
structure ConvModule where
  conv : Tensor → Tensor
  activate : Tensor → Tensor

/-- A full `ConvModule` forward: convolution followed by activation. -/
def ConvModule.apply (c : ConvModule) (t : Tensor) : Tensor := c.activate (c.conv t)

/-- Identity conv module, used only as the junk default of out-of-range
list indexing (where the Python source would raise IndexError). -/
def cmId : ConvModule := ⟨id, id⟩

/-- Run a stack of conv modules in order, each with its activation. -/
def applyAll (convs : List ConvModule) (t : Tensor) : Tensor :=
  convs.foldl (fun a c => c.apply a) t

/-- The conv-stack loop of `forward_crosskd_single`: iterate with the
enumeration counter `i` starting at `n`; after conv number `i` (before its
activation) the feature is recorded into the hold slot when
`i + 1 = idx`. -/
def convLoop (idx : ℕ) : ℕ → List ConvModule → Tensor → Tensor → Tensor × Tensor
  | _, [], feat, hold => (feat, hold)
  | n, c :: cs, feat, hold =>
      let feat' := c.conv feat
      let hold' := if n + 1 = idx then feat' else hold
      convLoop idx (n + 1) cs (c.activate feat') hold'

/-- Abstract interface of the external `GFLHead` detection head: the conv
stacks and prediction convs of its forward pass, and the anchor/target
machinery used by the loss, all supplied by the detection framework. -/
structure GFLHead (GT Meta : Type) where
  cls_convs : List ConvModule
  reg_convs : List ConvModule
  stacked_convs : ℕ
  gfl_cls : Tensor → Tensor
  gfl_reg : Tensor → Tensor
  scales : List (Tensor → Tensor)
  cls_out_channels : ℕ
  reg_max : ℕ
  prior_generator_num_levels : ℕ
  prior_generator_strides : List (ℝ × ℝ)
  get_anchors : List (ℕ × ℕ) → List Meta → List Tensor × List Tensor
  get_targets : List Tensor → List Tensor → List GT → List Meta → Option (List GT) →
    List Tensor × List (List ℤ) × List (List ℝ) × List Tensor × List Tensor × ℝ
  loss_by_feat_single : Tensor → Tensor → Tensor → List ℤ → List ℝ → Tensor →
    ℝ × ℝ → ℝ → ℝ × ℝ × ℝ × ℝ

/-- The pretrained teacher detector: a feature extractor and a GFL head. -/
structure Teacher (GT Meta : Type) where
  extract_feat : Tensor → List Tensor
  bbox_head : GFLHead GT Meta

/-- Modelled from the spec: the base class `CrossKDSingleStageDetector` is
not among the sources, so the state it provides to `CrossKDGFL` - the
frozen teacher detector, the student feature extractor and head, the
`reused_teacher_head_idx` reuse point, the `with_feat_distill` switch, the
KD loss modules `loss_cls_kd` / `loss_reg_kd` / `loss_feat_kd` and the
distributed `reduce_mean` / `unpack_gt_instances` utilities - is embedded
as abstract fields, following the spec description of a student trained to
match the predictions and internal features of a pretrained teacher.
`S` is the type of data samples, `GT` of ground-truth instance sets, and
`Meta` of image meta dictionaries. -/
structure Detector (S GT Meta : Type) where
  teacher : Teacher GT Meta
  bbox_head : GFLHead GT Meta
  extract_feat : Tensor → List Tensor
  reused_teacher_head_idx : ℕ
  with_feat_distill : Bool
  loss_cls_kd : Tensor → Tensor → List ℝ → ℝ → ℝ
  loss_reg_kd : Tensor → Tensor → List ℝ → ℝ → ℝ
  loss_feat_kd : Tensor → Tensor → ℝ
  reduce_mean : ℝ → ℝ
  unpack_gt_instances : List S → List GT × Option (List GT) × List Meta

variable {S GT Meta : Type}

/-- `forward_crosskd_single`: run the cls and reg conv stacks of the head
recording the pre-activation hold features at position
`reused_teacher_head_idx`, then the prediction convs (the `.float()` cast
is an identity here).  Returns
(cls_score, bbox_pred, cls_feat_hold, reg_feat_hold). -/
def forward_crosskd_single (idx : ℕ) (head : GFLHead GT Meta)
    (scale : Tensor → Tensor) (x : Tensor) : Tensor × Tensor × Tensor × Tensor :=
  let cls := convLoop idx 0 head.cls_convs x x
  let reg := convLoop idx 0 head.reg_convs x x
  (head.gfl_cls cls.1, scale (head.gfl_reg reg.1), cls.2, reg.2)

/-- `reuse_teacher_head`: align the student hold features to the teacher
hold feature statistics, apply ReLU unless the reuse index is 0, then
resume the teacher head: conv modules `cls_convs[i]` / `reg_convs[i]` for
`i` in `range(reused_teacher_head_idx, stacked_convs)` followed by the
teacher prediction convs.  Out-of-range indices (which would raise
IndexError in Python, and are excluded by the framework invariant
`stacked_convs = len(cls_convs)`) fall back to the identity module. -/
def reuse_teacher_head (idx : ℕ) (tea : GFLHead GT Meta) (scale : Tensor → Tensor)
    (tea_cls_feat tea_reg_feat stu_cls_feat stu_reg_feat : Tensor) : Tensor × Tensor :=
  let reused_cls_feat := align_scale stu_cls_feat tea_cls_feat
  let reused_reg_feat := align_scale stu_reg_feat tea_reg_feat
  let reused_cls_feat := if idx ≠ 0 then reluT reused_cls_feat else reused_cls_feat
  let reused_reg_feat := if idx ≠ 0 then reluT reused_reg_feat else reused_reg_feat
  let reused_cls_feat := (List.range' idx (tea.stacked_convs - idx)).foldl
    (fun a i => (tea.cls_convs.getD i cmId).apply a) reused_cls_feat
  let reused_reg_feat := (List.range' idx (tea.stacked_convs - idx)).foldl
    (fun a i => (tea.reg_convs.getD i cmId).apply a) reused_reg_feat
  (tea.gfl_cls reused_cls_feat, scale (tea.gfl_reg reused_reg_feat))

/-- The regression distillation weights of `pred_mimicking_loss_single`:
sigmoid of the per-location maximal teacher classification score, then
zeroed at the locations whose label weight is zero. -/
def regKDWeights (tea_cls_score : Tensor) (label_weights : List ℝ) : List ℝ :=
  List.zipWith (fun w lw => if lw = 0 then 0 else w)
    (tea_cls_score.map fun row => sigmoid (listMax row)) label_weights

/-- `pred_mimicking_loss_single`: the classification KD loss on the
reshaped score maps, the regression KD loss with the regression weights
replicated over the 4 box sides (`expand(-1, 4).reshape(-1)`) and a fixed
`avg_factor=4.0`, and the per-level weight total `reg_weights.sum()`. -/
def pred_mimicking_loss_single (D : Detector S GT Meta)
    (tea_cls_score tea_bbox_pred reused_cls_score reused_bbox_pred : Tensor)
    (label_weights : List ℝ) (avg_factor : ℝ) : ℝ × ℝ × ℝ :=
  let loss_cls_kd := D.loss_cls_kd reused_cls_score tea_cls_score label_weights avg_factor
  let reg_weights := regKDWeights tea_cls_score label_weights
  let loss_reg_kd := D.loss_reg_kd reused_bbox_pred tea_bbox_pred
    (reg_weights.flatMap fun w => List.replicate 4 w) 4
  (loss_cls_kd, loss_reg_kd, reg_weights.sum)

/-- Python `map` over five zipped per-level lists (`multi_apply`),
truncating at the shortest list. -/
def multiApply5 {α β γ δ ε ζ : Type} (f : α → β → γ → δ → ε → ζ)
    (as : List α) (bs : List β) (cs : List γ) (ds : List δ) (es : List ε) : List ζ :=
  List.zipWith (fun x e => f x.1.1.1 x.1.1.2 x.1.2 x.2 e) (((as.zip bs).zip cs).zip ds) es

/-- Python `map` over seven zipped per-level lists (`multi_apply`),
truncating at the shortest list. -/
def multiApply7 {α₁ α₂ α₃ α₄ α₅ α₆ α₇ β : Type} (f : α₁ → α₂ → α₃ → α₄ → α₅ → α₆ → α₇ → β)
    (l₁ : List α₁) (l₂ : List α₂) (l₃ : List α₃) (l₄ : List α₄) (l₅ : List α₅)
    (l₆ : List α₆) (l₇ : List α₇) : List β :=
  List.zipWith (fun x g => f x.1.1.1.1.1 x.1.1.1.1.2 x.1.1.1.2 x.1.1.2 x.1.2 x.2 g)
    (((((l₁.zip l₂).zip l₃).zip l₄).zip l₅).zip l₆) l₇

/-- `featmap.size()[-2:]` of the source; its value is consumed only by the
abstract `get_anchors` and its count by the level-count assertion. -/
def featmapSize (t : Tensor) : ℕ × ℕ := (t.length, t.headI.length)

/-- A Python loss dictionary in insertion order. -/
abbrev LossDict := List (String × List ℝ)

/-- The anchor/target part of `loss_by_feat`: `get_anchors` on the feature
map sizes followed by `get_targets`. -/
def lbfTargets (D : Detector S GT Meta) (cls_scores : List Tensor)
    (metas : List Meta) (gts : List GT) (ign : Option (List GT)) :
    List Tensor × List (List ℤ) × List (List ℝ) × List Tensor × List Tensor × ℝ :=
  let featmap_sizes := cls_scores.map featmapSize
  let ga := D.bbox_head.get_anchors featmap_sizes metas
  D.bbox_head.get_targets ga.1 ga.2 gts metas ign

/-- The per-level supervised losses: `multi_apply` of the external
`loss_by_feat_single` over anchors, scores, predictions, targets and
strides, producing (loss_cls, loss_bbox, loss_dfl, avg_factor) tuples. -/
def supervisedPerLevel (D : Detector S GT Meta)
    (anchor_list cls_scores bbox_preds : List Tensor) (labels_list : List (List ℤ))
    (label_weights_list : List (List ℝ)) (bbox_targets_list : List Tensor)
    (avg_factor : ℝ) : List (ℝ × ℝ × ℝ × ℝ) :=
  multiApply7 (fun a c b l w t s => D.bbox_head.loss_by_feat_single a c b l w t s avg_factor)
    anchor_list cls_scores bbox_preds labels_list label_weights_list bbox_targets_list
    D.bbox_head.prior_generator_strides

/-- `new_avg_factor`: sum of the per-level average factors, passed through
`reduce_mean` and clamped below at 1 (`clamp_(min=1)`). -/
def newAvgFactor (D : Detector S GT Meta) (per : List (ℝ × ℝ × ℝ × ℝ)) : ℝ :=
  max (D.reduce_mean ((per.map fun p => p.2.2.2).sum)) 1

/-- The per-level prediction-mimicking losses: `multi_apply` of
`pred_mimicking_loss_single` over the level lists. -/
def kdPerLevel (D : Detector S GT Meta)
    (tea_cls_scores tea_bbox_preds reused_cls_scores reused_bbox_preds : List Tensor)
    (label_weights_list : List (List ℝ)) (avg_factor : ℝ) : List (ℝ × ℝ × ℝ) :=
  multiApply5 (fun a b c d e => pred_mimicking_loss_single D a b c d e avg_factor)
    tea_cls_scores tea_bbox_preds reused_cls_scores reused_bbox_preds label_weights_list

/-- `kd_avg_factor`: plain sum of the per-level regression-KD weight
totals (no `reduce_mean`, no clamping). -/
def kdAvgFactor (D : Detector S GT Meta)
    (tea_cls_scores tea_bbox_preds reused_cls_scores reused_bbox_preds : List Tensor)
    (label_weights_list : List (List ℝ)) (avg_factor : ℝ) : ℝ :=
  ((kdPerLevel D tea_cls_scores tea_bbox_preds reused_cls_scores reused_bbox_preds
      label_weights_list avg_factor).map fun p => p.2.2).sum

/-- Body of `loss_by_feat` after the level-count assertion: supervised
losses with `loss_bbox` / `loss_dfl` renormalised by `new_avg_factor`,
prediction-mimicking losses with `loss_reg_kd` renormalised by
`kd_avg_factor`, and the feature-distillation entry added when
`with_feat_distill` is set. -/
def loss_by_feat_core (D : Detector S GT Meta)
    (tea_cls_scores tea_bbox_preds tea_feats cls_scores bbox_preds feats
      reused_cls_scores reused_bbox_preds : List Tensor)
    (gts : List GT) (metas : List Meta) (ign : Option (List GT)) : LossDict :=
  let ct := lbfTargets D cls_scores metas gts ign
  let avg_factor := D.reduce_mean ct.2.2.2.2.2
  let per := supervisedPerLevel D ct.1 cls_scores bbox_preds ct.2.1 ct.2.2.1
    ct.2.2.2.1 avg_factor
  let naf := newAvgFactor D per
  let kd := kdPerLevel D tea_cls_scores tea_bbox_preds reused_cls_scores
    reused_bbox_preds ct.2.2.1 avg_factor
  let kaf := kdAvgFactor D tea_cls_scores tea_bbox_preds reused_cls_scores
    reused_bbox_preds ct.2.2.1 avg_factor
  let base : LossDict :=
    [("loss_cls", per.map fun p => p.1),
     ("loss_bbox", (per.map fun p => p.2.1).map fun x => x / naf),
     ("loss_dfl", (per.map fun p => p.2.2.1).map fun x => x / naf),
     ("loss_cls_kd", kd.map fun p => p.1),
     ("loss_reg_kd", (kd.map fun p => p.2.1).map fun x => x / kaf)]
  if D.with_feat_distill then
    base ++ [("loss_feat_kd", List.zipWith D.loss_feat_kd feats tea_feats)]
  else base

/-- `loss_by_feat` of the source: the level-count assertion (`assert` is
modelled as the `none` outcome), the 4-way unpacking of the supervised
`multi_apply` result and the 3-way unpacking of the KD `multi_apply`
result (each of which raises ValueError on an empty per-level list, also
modelled as `none`), then the loss assembly. -/
def loss_by_feat (D : Detector S GT Meta)
    (tea_cls_scores tea_bbox_preds tea_feats cls_scores bbox_preds feats
      reused_cls_scores reused_bbox_preds : List Tensor)
    (gts : List GT) (metas : List Meta) (ign : Option (List GT)) : Option LossDict :=
  if (cls_scores.map featmapSize).length = D.bbox_head.prior_generator_num_levels then
    let ct := lbfTargets D cls_scores metas gts ign
    let avg_factor := D.reduce_mean ct.2.2.2.2.2
    match supervisedPerLevel D ct.1 cls_scores bbox_preds ct.2.1 ct.2.2.1
        ct.2.2.2.1 avg_factor,
      kdPerLevel D tea_cls_scores tea_bbox_preds reused_cls_scores
        reused_bbox_preds ct.2.2.1 avg_factor with
    | [], _ => none
    | _, [] => none
    | _ :: _, _ :: _ =>
        some (loss_by_feat_core D tea_cls_scores tea_bbox_preds tea_feats cls_scores
          bbox_preds feats reused_cls_scores reused_bbox_preds gts metas ign)
  else none

/-- `loss` of the source, in state-passing form: the method returns the
loss dictionary together with the post-call object state.  Each
`multi_apply` result is unpacked into several names, which raises
ValueError when the per-level list is empty; those failures are modelled
as the `none` outcome.  No statement of the method assigns to any
attribute of `self` or of `self.teacher` (the in-place tensor updates of
the source act on freshly created local tensors), so the state component
is the unchanged detector. -/
def loss (D : Detector S GT Meta) (batch_inputs : Tensor)
    (batch_data_samples : List S) : Option LossDict × Detector S GT Meta :=
  let tea_x := D.teacher.extract_feat batch_inputs
  let teaOut := List.zipWith
    (fun x s => forward_crosskd_single D.reused_teacher_head_idx D.teacher.bbox_head s x)
    tea_x D.teacher.bbox_head.scales
  let tea_cls_scores := teaOut.map fun p => p.1
  let tea_bbox_preds := teaOut.map fun p => p.2.1
  let tea_cls_hold := teaOut.map fun p => p.2.2.1
  let tea_reg_hold := teaOut.map fun p => p.2.2.2
  let stu_x := D.extract_feat batch_inputs
  let stuOut := List.zipWith
    (fun x s => forward_crosskd_single D.reused_teacher_head_idx D.bbox_head s x)
    stu_x D.bbox_head.scales
  let stu_cls_scores := stuOut.map fun p => p.1
  let stu_bbox_preds := stuOut.map fun p => p.2.1
  let stu_cls_hold := stuOut.map fun p => p.2.2.1
  let stu_reg_hold := stuOut.map fun p => p.2.2.2
  let reused := multiApply5
    (fun tc tr sc sr s =>
      reuse_teacher_head D.reused_teacher_head_idx D.teacher.bbox_head s tc tr sc sr)
    tea_cls_hold tea_reg_hold stu_cls_hold stu_reg_hold D.teacher.bbox_head.scales
  let reused_cls_scores := reused.map fun p => p.1
  let reused_bbox_preds := reused.map fun p => p.2
  let u := D.unpack_gt_instances batch_data_samples
  let result : Option LossDict :=
    match teaOut, stuOut, reused with
    | [], _, _ => none
    | _, [], _ => none
    | _, _, [] => none
    | _ :: _, _ :: _, _ :: _ =>
        loss_by_feat D tea_cls_scores tea_bbox_preds tea_x stu_cls_scores
          stu_bbox_preds stu_x reused_cls_scores reused_bbox_preds u.1 u.2.2 u.2.1
  (result, D)

/-- Lookup of one loss component in a loss dictionary. -/
def dictGet (d : LossDict) (k : String) : Option (List ℝ) :=
  (d.find? fun p => p.1 == k).map fun p => p.2

/-- One parameter-scheduler entry of a config file (`LinearLR` warmup or
`MultiStepLR` decay); fields not set by an entry are `none` or `[]`. -/
structure SchedulerStep where
  typ : String
  start_factor : Option ℚ
  by_epoch : Bool
  sBegin : ℕ
  sEnd : ℕ
  milestones : List ℕ
  gamma : Option ℚ

/-- `max_epochs` of `configs/our/our_r50_fpn_ms-2x_coco.py`. -/
def our_max_epochs : ℕ := 58

/-- `param_scheduler` of `configs/our/our_r50_fpn_ms-2x_coco.py`: linear
warmup with start factor 0.001 over iterations 0..500, then step decay by
0.1 at epochs 38 and 54. -/
def our_param_scheduler : List SchedulerStep :=
  [⟨"LinearLR", some (1 / 1000), false, 0, 500, [], none⟩,
   ⟨"MultiStepLR", none, true, 0, our_max_epochs, [38, 54], some (1 / 10)⟩]

/-- `train_cfg = dict(max_epochs=max_epochs)` of the same file. -/
def our_train_cfg_max_epochs : ℕ := our_max_epochs

/-- `max_epochs` of
`mmdet/.mim/configs/faster_rcnn/faster-rcnn_r50_fpn_1x_coco.py`. -/
def frcnn_max_epochs : ℕ := 58

/-- `param_scheduler` of the faster-rcnn config file. -/
def frcnn_param_scheduler : List SchedulerStep :=
  [⟨"LinearLR", some (1 / 1000), false, 0, 500, [], none⟩,
   ⟨"MultiStepLR", none, true, 0, frcnn_max_epochs, [38, 54], some (1 / 10)⟩]

/-- `train_cfg = dict(max_epochs=max_epochs)` of the faster-rcnn config. -/
def frcnn_train_cfg_max_epochs : ℕ := frcnn_max_epochs

/-- A trivial concrete GFL head with no levels and no conv layers, used to
evaluate the embedding on closed inputs. -/
def headEx : GFLHead Unit Unit where
  cls_convs := []
  reg_convs := []
  stacked_convs := 0
  gfl_cls := id
  gfl_reg := id
  scales := []
  cls_out_channels := 1
  reg_max := 0
  prior_generator_num_levels := 0
  prior_generator_strides := []
  get_anchors := fun _ _ => ([], [])
  get_targets := fun _ _ _ _ _ => ([], [], [], [], [], 0)
  loss_by_feat_single := fun _ _ _ _ _ _ _ _ => (0, 0, 0, 0)

/-- A trivial concrete teacher built on `headEx`. -/
def teacherEx : Teacher Unit Unit where
  extract_feat := fun _ => []
  bbox_head := headEx

/-- A concrete detector state with feature distillation enabled. -/
def detectorExT : Detector Unit Unit Unit where
  teacher := teacherEx
  bbox_head := headEx
  extract_feat := fun _ => []
  reused_teacher_head_idx := 1
  with_feat_distill := true
  loss_cls_kd := fun _ _ _ _ => 0
  loss_reg_kd := fun _ _ _ _ => 0
  loss_feat_kd := fun _ _ => 0
  reduce_mean := id
  unpack_gt_instances := fun _ => ([], none, [])

/-- A concrete detector state with feature distillation disabled. -/
def detectorExF : Detector Unit Unit Unit where
  teacher := teacherEx
  bbox_head := headEx
  extract_feat := fun _ => []
  reused_teacher_head_idx := 1
  with_feat_distill := false
  loss_cls_kd := fun _ _ _ _ => 0
  loss_reg_kd := fun _ _ _ _ => 0
  loss_feat_kd := fun _ _ => 0
  reduce_mean := id
  unpack_gt_instances := fun _ => ([], none, [])

/-- A concrete GFL head with one conv layer in each stack, used to evaluate
the head-reuse theorems on closed inputs. -/
def headEx1 : GFLHead Unit Unit :=
  { headEx with cls_convs := [cmId], reg_convs := [cmId], stacked_convs := 1 }

/-- A concrete GFL head with one pyramid level: one stride, anchors and
targets for a single level with a single anchor location of label weight 1
and average factor 1. -/
def headEx1L : GFLHead Unit Unit :=
  { headEx with
    prior_generator_num_levels := 1
    prior_generator_strides := [(8, 8)]
    get_anchors := fun _ _ => ([[[0]]], [[[0]]])
    get_targets := fun _ _ _ _ _ => ([[[0]]], [[0]], [[1]], [[[0]]], [[[0]]], 1) }

/-- A one-level detector state with feature distillation enabled, for
calling `loss_by_feat` directly. -/
def detectorEx1T : Detector Unit Unit Unit := { detectorExT with bbox_head := headEx1L }

/-- A one-level concrete GFL head that can also run the forward pass: one
conv layer per stack and one scale. -/
def headEx1Full : GFLHead Unit Unit :=
  { headEx1L with
    cls_convs := [cmId]
    reg_convs := [cmId]
    stacked_convs := 1
    scales := [id] }

/-- A concrete one-level teacher. -/
def teacherEx1 : Teacher Unit Unit where
  extract_feat := fun _ => [[[0]]]
  bbox_head := headEx1Full

/-- A full one-level detector state with feature distillation enabled, for
calling `loss` end to end. -/
def detectorEx1TFull : Detector Unit Unit Unit :=
  { detectorExT with
    teacher := teacherEx1
    bbox_head := headEx1Full
    extract_feat := fun _ => [[[0]]] }

/-- A full one-level detector state with feature distillation disabled. -/
def detectorEx1FFull : Detector Unit Unit Unit :=
  { detectorExF with
    teacher := teacherEx1
    bbox_head := headEx1Full
    extract_feat := fun _ => [[[0]]] }

/-- The dictionary `loss_by_feat` returns on the concrete one-level batch
with feature distillation enabled. -/
def lossDict1Ex6 : LossDict :=
  (loss_by_feat detectorEx1T [[[0]]] [[[0]]] [[[0]]] [[[0]]] [[[0]]] [[[0]]]
    [[[0]]] [[[0]]] ([] : List Unit) ([] : List Unit) none).getD []

/-- The dictionary `loss` returns on the concrete one-level batch with
feature distillation enabled. -/
def lossDict1Ex6Full : LossDict :=
  ((loss detectorEx1TFull ([] : Tensor) ([] : List Unit)).1).getD []

/-- The dictionary `loss` returns on the concrete one-level batch with
feature distillation disabled. -/
def lossDict1Ex5Full : LossDict :=
  ((loss detectorEx1FFull ([] : Tensor) ([] : List Unit)).1).getD []

/-- Sum of an affine image of a list. -/
theorem listSum_map_affine (k c : ℝ) (l : List ℝ) :
    (l.map fun x => k * x + c).sum = k * l.sum + c * l.length := by
  induction l with
  | nil => simp
  | cons a l ih =>
      simp only [List.map_cons, List.sum_cons, ih, List.length_cons]
      push_cast
      ring

/-- Sum of a scaled image of a list. -/
theorem listSum_map_mul (a : ℝ) (f : ℝ → ℝ) (l : List ℝ) :
    (l.map fun x => a * f x).sum = a * (l.map f).sum := by
  induction l with
  | nil => simp
  | cons b l ih => simp only [List.map_cons, List.sum_cons, ih]; ring

/-- Mean of an affine image of a nonempty list. -/
theorem listMean_map_affine (k c : ℝ) (l : List ℝ) (h : l ≠ []) :
    listMean (l.map fun x => k * x + c) = k * listMean l + c := by
  have hn : (l.length : ℝ) ≠ 0 := by
    exact_mod_cast Nat.pos_iff_ne_zero.mp (List.length_pos.mpr h)
  unfold listMean
  rw [listSum_map_affine, List.length_map]
  field_simp

/-- Variance of an affine image of a nonempty list. -/
theorem listVar_map_affine (k c : ℝ) (l : List ℝ) (h : l ≠ []) :
    listVar (l.map fun x => k * x + c) = k ^ 2 * listVar l := by
  unfold listVar
  rw [List.map_map, listMean_map_affine k c l h, List.length_map]
  have he : ((fun x => (x - (k * listMean l + c)) ^ 2) ∘ fun x => k * x + c)
      = fun x => k ^ 2 * (x - listMean l) ^ 2 := by
    funext x; simp only [Function.comp]; ring
  rw [he, listSum_map_mul (k ^ 2) (fun x => (x - listMean l) ^ 2) l]
  ring

/-- Standard deviation of an affine image of a nonempty list. -/
theorem listStd_map_affine (k c : ℝ) (l : List ℝ) (h : l ≠ []) :
    listStd (l.map fun x => k * x + c) = |k| * listStd l := by
  unfold listStd
  rw [listVar_map_affine k c l h, Real.sqrt_mul (sq_nonneg k), Real.sqrt_sq_eq_abs]

/-- The aligned channel is an affine image of the student channel. -/
theorem alignChannel_eq_affine (s t : List ℝ) :
    alignChannel s t = s.map fun x =>
      (listStd t / (listStd s + 1 / 1000000)) * x +
        (listMean t - listMean s * (listStd t / (listStd s + 1 / 1000000))) := by
  unfold alignChannel
  refine List.map_congr_left fun x _ => ?_
  ring

/-- Per-channel mean of the aligned channel: exactly the teacher mean. -/
theorem alignChannel_mean (s t : List ℝ) (h : s ≠ []) :
    listMean (alignChannel s t) = listMean t := by
  rw [alignChannel_eq_affine, listMean_map_affine _ _ _ h]
  ring

/-- Per-channel standard deviation of the aligned channel: the teacher
standard deviation scaled by the ratio of the student standard deviation to
itself plus 1e-6. -/
theorem alignChannel_std (s t : List ℝ) (h : s ≠ []) :
    listStd (alignChannel s t)
      = listStd t * (listStd s / (listStd s + 1 / 1000000)) := by
  have hk : 0 ≤ listStd t / (listStd s + 1 / 1000000) := by
    have h1 : (0 : ℝ) ≤ listStd t := Real.sqrt_nonneg _
    have h2 : (0 : ℝ) < listStd s + 1 / 1000000 := by
      have := Real.sqrt_nonneg (listVar s)
      unfold listStd
      positivity
    exact div_nonneg h1 h2.le
  rw [alignChannel_eq_affine, listStd_map_affine _ _ _ h, abs_of_nonneg hk]
  ring

/-- `getD` through `zipWith`, inside the common range. -/
theorem getD_zipWith {α β γ : Type} (f : α → β → γ) (dA : α) (dB : β) (dC : γ) :
    ∀ (as : List α) (bs : List β) (i : ℕ), i < as.length → i < bs.length →
      (List.zipWith f as bs).getD i dC = f (as.getD i dA) (bs.getD i dB) := by
  intro as
  induction as with
  | nil => intro bs i h _; simp at h
  | cons a as ih =>
      intro bs i h1 h2
      cases bs with
      | nil => simp at h2
      | cons b bs =>
          cases i with
          | zero => simp
          | succ j =>
              simp only [List.zipWith_cons_cons, List.getD_cons_succ]
              exact ih bs j (by simpa using h1) (by simpa using h2)

/-- The first component of the conv-stack loop is the fully activated conv
stack, independently of the hold bookkeeping. -/
theorem convLoop_fst (idx : ℕ) :
    ∀ (convs : List ConvModule) (n : ℕ) (feat hold : Tensor),
      (convLoop idx n convs feat hold).1 = applyAll convs feat := by
  intro convs
  induction convs with
  | nil => intro n feat hold; rfl
  | cons c cs ih =>
      intro n feat hold
      simp only [convLoop, applyAll, List.foldl_cons]
      exact ih (n + 1) _ _

/-- Once the enumeration counter has passed the reuse index, the hold slot
never changes. -/
theorem convLoop_snd_frozen (idx : ℕ) :
    ∀ (convs : List ConvModule) (n : ℕ) (feat hold : Tensor), idx ≤ n →
      (convLoop idx n convs feat hold).2 = hold := by
  intro convs
  induction convs with
  | nil => intro n feat hold _; rfl
  | cons c cs ih =>
      intro n feat hold h
      simp only [convLoop]
      rw [if_neg (by omega)]
      exact ih (n + 1) _ _ (by omega)

/-- The hold slot of the conv-stack loop, when the reuse index falls inside
the remaining stack: the first `idx - n - 1` conv modules are applied in
full and conv module number `idx - n - 1` is applied without activation. -/
theorem convLoop_snd_spec :
    ∀ (convs : List ConvModule) (n idx : ℕ) (feat hold : Tensor),
      n < idx → idx ≤ n + convs.length →
      (convLoop idx n convs feat hold).2
        = (convs.getD (idx - n - 1) cmId).conv
            (applyAll (convs.take (idx - n - 1)) feat) := by
  intro convs
  induction convs with
  | nil => intro n idx feat hold h1 h2; simp at h2; omega
  | cons c cs ih =>
      intro n idx feat hold h1 h2
      simp only [convLoop]
      by_cases h : n + 1 = idx
      · rw [if_pos h, convLoop_snd_frozen idx cs (n + 1) _ _ (by omega)]
        have e : idx - n - 1 = 0 := by omega
        rw [e]
        simp [applyAll]
      · rw [if_neg h]
        rw [ih (n + 1) idx _ _ (by omega) (by simp at h2 ⊢; omega)]
        have e : idx - n - 1 = (idx - (n + 1) - 1) + 1 := by omega
        rw [e, List.getD_cons_succ, List.take_succ_cons]
        simp [applyAll, ConvModule.apply]

/-- When the reuse index is 0 or beyond the end of the stack, the hold slot
keeps its initial value. -/
theorem convLoop_snd_out (idx : ℕ) :
    ∀ (convs : List ConvModule) (n : ℕ) (feat hold : Tensor),
      idx ≤ n ∨ n + convs.length < idx →
      (convLoop idx n convs feat hold).2 = hold := by
  intro convs
  induction convs with
  | nil => intro n feat hold _; rfl
  | cons c cs ih =>
      intro n feat hold h
      simp only [convLoop]
      rw [if_neg (by simp at h; omega)]
      exact ih (n + 1) _ _ (by simp at h ⊢; omega)

/-- The indexed fold of `reuse_teacher_head` over `range'` is the fold over
the corresponding segment of the conv stack, provided the segment stays in
range. -/
theorem rangeFold_eq_applyAll (convs : List ConvModule) :
    ∀ (n a : ℕ) (x : Tensor), a + n ≤ convs.length →
      (List.range' a n).foldl (fun t i => (convs.getD i cmId).apply t) x
        = applyAll ((convs.drop a).take n) x := by
  intro n
  induction n with
  | zero => intro a x _; simp [applyAll]
  | succ m ih =>
      intro a x h
      have ha : a < convs.length := by omega
      rw [show List.range' a (m + 1) = a :: List.range' (a + 1) m from
        List.range'_succ a m 1 ▸ rfl]
      rw [List.drop_eq_getElem_cons ha, List.take_succ_cons]
      simp only [List.foldl_cons, applyAll]
      rw [List.getD_eq_getElem convs cmId ha]
      exact ih (a + 1) _ (by omega)

/-- The logistic sigmoid is strictly positive. -/
theorem sigmoid_pos (x : ℝ) : 0 < sigmoid x := by
  unfold sigmoid
  have h := Real.exp_pos (-x)
  positivity

/-- Unfolding of the regression KD weights at a cons. -/
theorem regKDWeights_cons (t : List ℝ) (T : Tensor) (l : ℝ) (L : List ℝ) :
    regKDWeights (t :: T) (l :: L)
      = (if l = 0 then 0 else sigmoid (listMax t)) :: regKDWeights T L := by
  simp [regKDWeights]

/-- Every regression KD weight is nonnegative. -/
theorem regKDWeights_nonneg :
    ∀ (T : Tensor) (L : List ℝ), ∀ x ∈ regKDWeights T L, 0 ≤ x := by
  intro T
  induction T with
  | nil => intro L x hx; simp [regKDWeights] at hx
  | cons t T ih =>
      intro L x hx
      cases L with
      | nil => simp [regKDWeights] at hx
      | cons l L =>
          rw [regKDWeights_cons] at hx
          rcases List.mem_cons.mp hx with h | h
          · subst h
            by_cases hl : l = 0 <;> simp [hl, (sigmoid_pos (listMax t)).le]
          · exact ih L x h

/-- The per-level regression KD weight total is nonnegative. -/
theorem regKDWeights_sum_nonneg (T : Tensor) (L : List ℝ) :
    0 ≤ (regKDWeights T L).sum :=
  List.sum_nonneg (regKDWeights_nonneg T L)

/-- The per-level regression KD weight total is strictly positive as soon
as some in-range location has a nonzero label weight. -/
theorem regKDWeights_sum_pos :
    ∀ (j : ℕ) (T : Tensor) (L : List ℝ), j < T.length → j < L.length →
      L.getD j 0 ≠ 0 → 0 < (regKDWeights T L).sum := by
  intro j
  induction j with
  | zero =>
      intro T L h1 h2 hl
      cases T with
      | nil => simp at h1
      | cons t T =>
          cases L with
          | nil => simp at h2
          | cons l L =>
              rw [regKDWeights_cons, List.sum_cons]
              simp only [List.getD_cons_zero] at hl
              rw [if_neg hl]
              have ht := regKDWeights_sum_nonneg T L
              have hs := sigmoid_pos (listMax t)
              linarith
  | succ m ih =>
      intro T L h1 h2 hl
      cases T with
      | nil => simp at h1
      | cons t T =>
          cases L with
          | nil => simp at h2
          | cons l L =>
              rw [regKDWeights_cons, List.sum_cons]
              have hhead : (0 : ℝ) ≤ if l = 0 then 0 else sigmoid (listMax t) := by
                by_cases hz : l = 0 <;> simp [hz, (sigmoid_pos (listMax t)).le]
              have htail := ih T L (by simpa using h1) (by simpa using h2)
                (by simpa using hl)
              linarith

/-- Unfolding of the per-level KD losses at a cons of every level list. -/
theorem kdPerLevel_cons (D : Detector S GT Meta) (t : Tensor) (T : List Tensor)
    (b : Tensor) (B : List Tensor) (r : Tensor) (R : List Tensor)
    (q : Tensor) (Q : List Tensor) (l : List ℝ) (L : List (List ℝ)) (af : ℝ) :
    kdPerLevel D (t :: T) (b :: B) (r :: R) (q :: Q) (l :: L) af
      = pred_mimicking_loss_single D t b r q l af :: kdPerLevel D T B R Q L af := by
  simp [kdPerLevel, multiApply5]

/-- Every per-level regression KD weight total inside `kdPerLevel` is
nonnegative. -/
theorem kdPerLevel_third_nonneg (D : Detector S GT Meta) :
    ∀ (T B R Q : List Tensor) (L : List (List ℝ)) (af : ℝ),
      ∀ p ∈ kdPerLevel D T B R Q L af, 0 ≤ p.2.2 := by
  intro T
  induction T with
  | nil => intro B R Q L af p hp; simp [kdPerLevel, multiApply5] at hp
  | cons t T ih =>
      intro B R Q L af p hp
      cases B with
      | nil => simp [kdPerLevel, multiApply5] at hp
      | cons b B =>
          cases R with
          | nil => simp [kdPerLevel, multiApply5] at hp
          | cons r R =>
              cases Q with
              | nil => simp [kdPerLevel, multiApply5] at hp
              | cons q Q =>
                  cases L with
                  | nil => simp [kdPerLevel, multiApply5] at hp
                  | cons l L =>
                      rw [kdPerLevel_cons] at hp
                      rcases List.mem_cons.mp hp with h | h
                      · subst h
                        exact regKDWeights_sum_nonneg t l
                      · exact ih B R Q L af p h

/-- `kd_avg_factor` is strictly positive as soon as some in-range level has
a strictly positive weight total. -/
theorem kdAvgFactor_pos (D : Detector S GT Meta) :
    ∀ (i : ℕ) (T B R Q : List Tensor) (L : List (List ℝ)) (af : ℝ),
      i < T.length → i < B.length → i < R.length → i < Q.length → i < L.length →
      0 < (regKDWeights (T.getD i []) (L.getD i [])).sum →
      0 < kdAvgFactor D T B R Q L af := by
  intro i
  induction i with
  | zero =>
      intro T B R Q L af h1 h2 h3 h4 h5 hpos
      cases T with
      | nil => simp at h1
      | cons t T =>
          cases B with
          | nil => simp at h2
          | cons b B =>
              cases R with
              | nil => simp at h3
              | cons r R =>
                  cases Q with
                  | nil => simp at h4
                  | cons q Q =>
                      cases L with
                      | nil => simp at h5
                      | cons l L =>
                          unfold kdAvgFactor
                          rw [kdPerLevel_cons]
                          simp only [List.map_cons, List.sum_cons]
                          have htail : 0 ≤ ((kdPerLevel D T B R Q L af).map
                              fun p => p.2.2).sum := by
                            apply List.sum_nonneg
                            intro x hx
                            rcases List.mem_map.mp hx with ⟨p, hp, rfl⟩
                            exact kdPerLevel_third_nonneg D T B R Q L af p hp
                          simp only [List.getD_cons_zero] at hpos
                          have hh : (pred_mimicking_loss_single D t b r q l af).2.2
                              = (regKDWeights t l).sum := rfl
                          rw [hh]
                          linarith
  | succ m ih =>
      intro T B R Q L af h1 h2 h3 h4 h5 hpos
      cases T with
      | nil => simp at h1
      | cons t T =>
          cases B with
          | nil => simp at h2
          | cons b B =>
              cases R with
              | nil => simp at h3
              | cons r R =>
                  cases Q with
                  | nil => simp at h4
                  | cons q Q =>
                      cases L with
                      | nil => simp at h5
                      | cons l L =>
                          have htail := ih T B R Q L af (by simpa using h1)
                            (by simpa using h2) (by simpa using h3)
                            (by simpa using h4) (by simpa using h5)
                            (by simpa using hpos)
                          unfold kdAvgFactor at htail ⊢
                          rw [kdPerLevel_cons]
                          simp only [List.map_cons, List.sum_cons]
                          have hh : (pred_mimicking_loss_single D t b r q l af).2.2
                              = (regKDWeights t l).sum := rfl
                          rw [hh]
                          have hhead := regKDWeights_sum_nonneg t l
                          linarith

/-- The key list of the assembled loss dictionary: the five prediction loss
components, plus `loss_feat_kd` exactly when feature distillation is on. -/
theorem loss_by_feat_core_keys (D : Detector S GT Meta)
    (tcs tbp tf cs bp fs rcs rbp : List Tensor) (gts : List GT)
    (metas : List Meta) (ign : Option (List GT)) :
    (loss_by_feat_core D tcs tbp tf cs bp fs rcs rbp gts metas ign).map Prod.fst
      = if D.with_feat_distill then
          ["loss_cls", "loss_bbox", "loss_dfl", "loss_cls_kd", "loss_reg_kd",
            "loss_feat_kd"]
        else ["loss_cls", "loss_bbox", "loss_dfl", "loss_cls_kd", "loss_reg_kd"] := by
  unfold loss_by_feat_core
  cases hw : D.with_feat_distill <;> simp [hw]

/-- The key list of every dictionary `loss_by_feat` returns. -/
theorem loss_by_feat_keys (D : Detector S GT Meta)
    (tcs tbp tf cs bp fs rcs rbp : List Tensor) (gts : List GT)
    (metas : List Meta) (ign : Option (List GT)) (dd : LossDict)
    (hd : loss_by_feat D tcs tbp tf cs bp fs rcs rbp gts metas ign = some dd) :
    dd.map Prod.fst
      = if D.with_feat_distill then
          ["loss_cls", "loss_bbox", "loss_dfl", "loss_cls_kd", "loss_reg_kd",
            "loss_feat_kd"]
        else ["loss_cls", "loss_bbox", "loss_dfl", "loss_cls_kd", "loss_reg_kd"] := by
  unfold loss_by_feat at hd
  split at hd
  · dsimp only at hd
    split at hd
    any_goals exact Option.noConfusion hd
    cases hd
    exact loss_by_feat_core_keys D tcs tbp tf cs bp fs rcs rbp gts metas ign
  · exact Option.noConfusion hd

/-- `getD` of the regression KD weights at an in-range location. -/
theorem regKDWeights_getD :
    ∀ (j : ℕ) (T : Tensor) (L : List ℝ), j < T.length → j < L.length →
      (regKDWeights T L).getD j 0
        = if L.getD j 0 = 0 then 0 else sigmoid (listMax (T.getD j [])) := by
  intro j
  induction j with
  | zero =>
      intro T L h1 h2
      cases T with
      | nil => simp at h1
      | cons t T =>
          cases L with
          | nil => simp at h2
          | cons l L => rw [regKDWeights_cons]; simp
  | succ m ih =>
      intro T L h1 h2
      cases T with
      | nil => simp at h1
      | cons t T =>
          cases L with
          | nil => simp at h2
          | cons l L =>
              rw [regKDWeights_cons]
              simp only [List.getD_cons_succ]
              exact ih T L (by simpa using h1) (by simpa using h2)

/-- Claim C10: both training configurations of the repository set
`max_epochs` to 58 and use the same learning-rate schedule: a linear warmup
with start factor 0.001 over the first 500 iterations, then step decays by
a factor of 0.1 at epochs 38 and 54. -/
theorem c10_both_configs_same_schedule :
    our_max_epochs = 58 ∧ frcnn_max_epochs = 58
    ∧ our_train_cfg_max_epochs = 58 ∧ frcnn_train_cfg_max_epochs = 58
    ∧ our_param_scheduler = frcnn_param_scheduler
    ∧ our_param_scheduler
        = [⟨"LinearLR", some (1 / 1000), false, 0, 500, [], none⟩,
           ⟨"MultiStepLR", none, true, 0, 58, [38, 54], some (1 / 10)⟩] :=
  ⟨rfl, rfl, rfl, rfl, rfl, rfl⟩

/-- Claim C7: a call to `loss` only evaluates the pretrained teacher and
never updates it: in the state-passing embedding the post-call detector
state keeps the teacher, and in particular the scales, conv stacks and
prediction convs of its `bbox_head`, identical to the pre-call state. -/
theorem c7_teacher_unchanged (D : Detector S GT Meta) (inp : Tensor)
    (samples : List S) :
    (loss D inp samples).2.teacher = D.teacher
    ∧ (loss D inp samples).2.teacher.bbox_head.scales = D.teacher.bbox_head.scales
    ∧ (loss D inp samples).2.teacher.bbox_head.cls_convs = D.teacher.bbox_head.cls_convs
    ∧ (loss D inp samples).2.teacher.bbox_head.reg_convs = D.teacher.bbox_head.reg_convs
    ∧ (loss D inp samples).2.teacher.bbox_head.gfl_cls = D.teacher.bbox_head.gfl_cls
    ∧ (loss D inp samples).2.teacher.bbox_head.gfl_reg = D.teacher.bbox_head.gfl_reg :=
  ⟨rfl, rfl, rfl, rfl, rfl, rfl⟩

/-- Claim C1 (amended): the dictionary returned by `loss_by_feat` has
exactly the five loss components loss_cls, loss_bbox, loss_dfl,
loss_cls_kd and loss_reg_kd when feature distillation is disabled, and
those five plus loss_feat_kd when `with_feat_distill` is set. -/
theorem c1_loss_by_feat_components (D : Detector S GT Meta)
    (tcs tbp tf cs bp fs rcs rbp : List Tensor) (gts : List GT)
    (metas : List Meta) (ign : Option (List GT)) (dd : LossDict)
    (hd : loss_by_feat D tcs tbp tf cs bp fs rcs rbp gts metas ign = some dd) :
    dd.map Prod.fst
      = if D.with_feat_distill then
          ["loss_cls", "loss_bbox", "loss_dfl", "loss_cls_kd", "loss_reg_kd",
            "loss_feat_kd"]
        else ["loss_cls", "loss_bbox", "loss_dfl", "loss_cls_kd", "loss_reg_kd"] :=
  loss_by_feat_keys D tcs tbp tf cs bp fs rcs rbp gts metas ign dd hd

/-- Witness for C1 at a concrete one-level batch with feature distillation
enabled. -/
theorem c1_loss_by_feat_components_witness :
    lossDict1Ex6.map Prod.fst
      = if detectorEx1T.with_feat_distill then
          ["loss_cls", "loss_bbox", "loss_dfl", "loss_cls_kd", "loss_reg_kd",
            "loss_feat_kd"]
        else ["loss_cls", "loss_bbox", "loss_dfl", "loss_cls_kd", "loss_reg_kd"] :=
  c1_loss_by_feat_components detectorEx1T [[[0]]] [[[0]]] [[[0]]] [[[0]]] [[[0]]]
    [[[0]]] [[[0]]] [[[0]]] [] [] none lossDict1Ex6 rfl

/-- Counterexample to C1 as stated: on a concrete one-level batch with
feature distillation enabled, `loss_by_feat` returns a dictionary whose
keys are not exactly the five claimed components. -/
theorem c1_five_components_counterexample :
    loss_by_feat detectorEx1T [[[0]]] [[[0]]] [[[0]]] [[[0]]] [[[0]]] [[[0]]]
        [[[0]]] [[[0]]] ([] : List Unit) ([] : List Unit) none = some lossDict1Ex6
    ∧ lossDict1Ex6.map Prod.fst
        ≠ ["loss_cls", "loss_bbox", "loss_dfl", "loss_cls_kd", "loss_reg_kd"] :=
  ⟨rfl, by decide⟩

/-- Claim C2 (amended): provided feature distillation is enabled
(`with_feat_distill`), every dictionary returned by `loss` contains the
supervised detection terms, the prediction-mimicking terms and the
feature-matching term: its keys are exactly loss_cls, loss_bbox, loss_dfl,
loss_cls_kd, loss_reg_kd and loss_feat_kd. -/
theorem c2_loss_dictionary_components (D : Detector S GT Meta)
    (hw : D.with_feat_distill = true) (inp : Tensor) (samples : List S)
    (dd : LossDict) (hd : (loss D inp samples).1 = some dd) :
    dd.map Prod.fst
      = ["loss_cls", "loss_bbox", "loss_dfl", "loss_cls_kd", "loss_reg_kd",
          "loss_feat_kd"] := by
  simp only [loss] at hd
  split at hd
  any_goals exact Option.noConfusion hd
  have h := loss_by_feat_keys D _ _ _ _ _ _ _ _ _ _ _ dd hd
  rw [hw] at h
  simpa using h

/-- Witness for C2 at a concrete one-level batch with feature distillation
enabled. -/
theorem c2_loss_dictionary_components_witness :
    lossDict1Ex6Full.map Prod.fst
      = ["loss_cls", "loss_bbox", "loss_dfl", "loss_cls_kd", "loss_reg_kd",
          "loss_feat_kd"] :=
  c2_loss_dictionary_components detectorEx1TFull rfl [] [] lossDict1Ex6Full rfl

/-- Counterexample to C2 as stated: on a concrete one-level batch with
feature distillation disabled the dictionary returned by `loss` has no
loss_feat_kd component. -/
theorem c2_feat_kd_counterexample :
    (loss detectorEx1FFull ([] : Tensor) ([] : List Unit)).1 = some lossDict1Ex5Full
    ∧ "loss_feat_kd" ∉ lossDict1Ex5Full.map Prod.fst :=
  ⟨rfl, by decide⟩

/-- Claim C5: in `pred_mimicking_loss_single` the regression KD weight at
each in-range location is the sigmoid of the maximal teacher
classification score there, zeroed when the label weight is zero; the
weight vector handed to `loss_reg_kd` replicates these weights over the 4
box sides; and the returned per-level factor is the sum of the
per-location weights. -/
theorem c5_pred_mimicking_weights (D : Detector S GT Meta)
    (T B R Q : Tensor) (L : List ℝ) (af : ℝ) (j : ℕ)
    (hjT : j < T.length) (hjL : j < L.length) :
    (regKDWeights T L).getD j 0
        = (if L.getD j 0 = 0 then 0 else sigmoid (listMax (T.getD j [])))
    ∧ (pred_mimicking_loss_single D T B R Q L af).2.1
        = D.loss_reg_kd Q B
            ((regKDWeights T L).flatMap fun w => List.replicate 4 w) 4
    ∧ (pred_mimicking_loss_single D T B R Q L af).2.2 = (regKDWeights T L).sum :=
  ⟨regKDWeights_getD j T L hjT hjL, rfl, rfl⟩

/-- Witness for C5 at a one-location, one-class level. -/
theorem c5_pred_mimicking_weights_witness :
    (regKDWeights [[0]] [1]).getD 0 0
        = (if (1 : ℝ) = 0 then 0 else sigmoid (listMax [(0 : ℝ)]))
    ∧ (pred_mimicking_loss_single detectorExT [[0]] [] [] [] [1] 0).2.1
        = detectorExT.loss_reg_kd [] []
            ((regKDWeights [[0]] [1]).flatMap fun w => List.replicate 4 w) 4
    ∧ (pred_mimicking_loss_single detectorExT [[0]] [] [] [] [1] 0).2.2
        = (regKDWeights [[0]] [1]).sum :=
  c5_pred_mimicking_weights detectorExT [[0]] [] [] [] [1] 0 0
    (by decide) (by decide)

/-- Claim C9: the two denominators used while assembling the loss
dictionary are nonzero under the stated precondition: `new_avg_factor` is
clamped to at least 1 unconditionally, and `kd_avg_factor` is strictly
positive as soon as one in-range anchor location has a nonzero label
weight. -/
theorem c9_nonzero_denominators (D : Detector S GT Meta)
    (T B R Q : List Tensor) (L : List (List ℝ)) (af : ℝ) (i j : ℕ)
    (hiT : i < T.length) (hiB : i < B.length) (hiR : i < R.length)
    (hiQ : i < Q.length) (hiL : i < L.length)
    (hjT : j < (T.getD i []).length) (hjL : j < (L.getD i []).length)
    (hlw : (L.getD i []).getD j 0 ≠ 0) :
    (∀ per : List (ℝ × ℝ × ℝ × ℝ), 1 ≤ newAvgFactor D per)
    ∧ 0 < kdAvgFactor D T B R Q L af :=
  ⟨fun _ => le_max_right _ 1,
   kdAvgFactor_pos D i T B R Q L af hiT hiB hiR hiQ hiL
     (regKDWeights_sum_pos j (T.getD i []) (L.getD i []) hjT hjL hlw)⟩

/-- Witness for C9 at a one-level batch with a single location of label
weight 1. -/
theorem c9_nonzero_denominators_witness :
    (∀ per : List (ℝ × ℝ × ℝ × ℝ), 1 ≤ newAvgFactor detectorExT per)
    ∧ 0 < kdAvgFactor detectorExT [[[0]]] [[]] [[]] [[]] [[1]] 0 :=
  c9_nonzero_denominators detectorExT [[[0]]] [[]] [[]] [[]] [[1]] 0 0 0
    (by decide) (by decide) (by decide) (by decide) (by decide)
    (by decide) (by decide) (by simp)

/-- Claim C3: `forward_crosskd_single` records, for the cls and the reg
stack alike, the pre-activation feature produced after conv layer number
`reused_teacher_head_idx` (counting from 1), and `reuse_teacher_head`
resumes the teacher head from exactly that point: conv modules of index
`reused_teacher_head_idx` up to `stacked_convs - 1`, then the teacher
`gfl_cls` and scale-wrapped `gfl_reg`, applied to the ReLU of the aligned
student features. -/
theorem c3_partial_forward_and_reuse (head : GFLHead GT Meta)
    (scl : Tensor → Tensor) (x tc tr sc sr : Tensor) (idx : ℕ)
    (h1 : 1 ≤ idx) (h2c : idx ≤ head.cls_convs.length)
    (h2r : idx ≤ head.reg_convs.length)
    (h3c : head.stacked_convs ≤ head.cls_convs.length)
    (h3r : head.stacked_convs ≤ head.reg_convs.length) :
    (forward_crosskd_single idx head scl x).2.2.1
        = (head.cls_convs.getD (idx - 1) cmId).conv
            (applyAll (head.cls_convs.take (idx - 1)) x)
    ∧ (forward_crosskd_single idx head scl x).2.2.2
        = (head.reg_convs.getD (idx - 1) cmId).conv
            (applyAll (head.reg_convs.take (idx - 1)) x)
    ∧ reuse_teacher_head idx head scl tc tr sc sr
        = (head.gfl_cls
            (applyAll ((head.cls_convs.drop idx).take (head.stacked_convs - idx))
              (reluT (align_scale sc tc))),
           scl (head.gfl_reg
            (applyAll ((head.reg_convs.drop idx).take (head.stacked_convs - idx))
              (reluT (align_scale sr tr))))) := by
  refine ⟨?_, ?_, ?_⟩
  · have h := convLoop_snd_spec head.cls_convs 0 idx x x (by omega) (by omega)
    simpa using h
  · have h := convLoop_snd_spec head.reg_convs 0 idx x x (by omega) (by omega)
    simpa using h
  · have hne : idx ≠ 0 := by omega
    have hfc := rangeFold_eq_applyAll head.cls_convs (head.stacked_convs - idx) idx
      (reluT (align_scale sc tc)) (by omega)
    have hfr := rangeFold_eq_applyAll head.reg_convs (head.stacked_convs - idx) idx
      (reluT (align_scale sr tr)) (by omega)
    simp only [reuse_teacher_head, hne, ne_eq, not_false_eq_true, if_true]
    rw [hfc, hfr]

/-- Witness for C3 on the one-layer head with reuse index 1. -/
theorem c3_partial_forward_and_reuse_witness :
    (forward_crosskd_single 1 headEx1 id ([] : Tensor)).2.2.1
        = (headEx1.cls_convs.getD 0 cmId).conv
            (applyAll (headEx1.cls_convs.take 0) [])
    ∧ (forward_crosskd_single 1 headEx1 id ([] : Tensor)).2.2.2
        = (headEx1.reg_convs.getD 0 cmId).conv
            (applyAll (headEx1.reg_convs.take 0) [])
    ∧ reuse_teacher_head 1 headEx1 id [] [] [] []
        = (headEx1.gfl_cls
            (applyAll ((headEx1.cls_convs.drop 1).take 0)
              (reluT (align_scale [] []))),
           id (headEx1.gfl_reg
            (applyAll ((headEx1.reg_convs.drop 1).take 0)
              (reluT (align_scale [] []))))) :=
  c3_partial_forward_and_reuse headEx1 id [] [] [] [] [] 1
    (by decide) (by decide) (by decide) (by decide) (by decide)

/-- Claim C8: with reuse index 0 the hold features are the unmodified head
inputs, `reuse_teacher_head` applies no ReLU, and the whole teacher conv
stack is re-run on the aligned features; with a reuse index beyond the
stack length the hold features are likewise the unmodified inputs. -/
theorem c8_reuse_index_edge_cases (head : GFLHead GT Meta)
    (scl : Tensor → Tensor) (x tc tr sc sr : Tensor)
    (h0c : head.stacked_convs = head.cls_convs.length)
    (h0r : head.stacked_convs = head.reg_convs.length) :
    ((forward_crosskd_single 0 head scl x).2.2.1 = x
      ∧ (forward_crosskd_single 0 head scl x).2.2.2 = x)
    ∧ (∀ idx : ℕ, head.cls_convs.length < idx → head.reg_convs.length < idx →
        (forward_crosskd_single idx head scl x).2.2.1 = x
        ∧ (forward_crosskd_single idx head scl x).2.2.2 = x)
    ∧ reuse_teacher_head 0 head scl tc tr sc sr
        = (head.gfl_cls (applyAll head.cls_convs (align_scale sc tc)),
           scl (head.gfl_reg (applyAll head.reg_convs (align_scale sr tr)))) := by
  refine ⟨⟨?_, ?_⟩, ?_, ?_⟩
  · exact convLoop_snd_out 0 head.cls_convs 0 x x (Or.inl le_rfl)
  · exact convLoop_snd_out 0 head.reg_convs 0 x x (Or.inl le_rfl)
  · intro idx hc hr
    exact ⟨convLoop_snd_out idx head.cls_convs 0 x x (Or.inr (by omega)),
           convLoop_snd_out idx head.reg_convs 0 x x (Or.inr (by omega))⟩
  · have hfc := rangeFold_eq_applyAll head.cls_convs head.stacked_convs 0
      (align_scale sc tc) (by omega)
    have hfr := rangeFold_eq_applyAll head.reg_convs head.stacked_convs 0
      (align_scale sr tr) (by omega)
    simp only [reuse_teacher_head, ne_eq, not_true_eq_false, if_false, Nat.sub_zero]
    rw [hfc, hfr, List.drop_zero, List.drop_zero]
    nth_rewrite 2 [h0r]
    rw [h0c, List.take_length, List.take_length]

/-- Witness for C8 on the one-layer head. -/
theorem c8_reuse_index_edge_cases_witness :
    (((forward_crosskd_single 0 headEx1 id ([] : Tensor)).2.2.1 = [])
      ∧ ((forward_crosskd_single 0 headEx1 id ([] : Tensor)).2.2.2 = []))
    ∧ (∀ idx : ℕ, headEx1.cls_convs.length < idx → headEx1.reg_convs.length < idx →
        (forward_crosskd_single idx headEx1 id ([] : Tensor)).2.2.1 = []
        ∧ (forward_crosskd_single idx headEx1 id ([] : Tensor)).2.2.2 = [])
    ∧ reuse_teacher_head 0 headEx1 id [] [] [] []
        = (headEx1.gfl_cls (applyAll headEx1.cls_convs (align_scale [] [])),
           id (headEx1.gfl_reg (applyAll headEx1.reg_convs (align_scale [] [])))) :=
  c8_reuse_index_edge_cases headEx1 id [] [] [] [] [] rfl rfl

/-- Claim C4 (amended): on every in-range channel pair with a nonempty
student channel, `align_scale` returns a channel whose mean is exactly the
teacher channel mean, and whose standard deviation is the teacher channel
standard deviation scaled by the ratio of the student standard deviation
to itself plus 1e-6 (so only approximately the teacher one). -/
theorem c4_align_scale_statistics (stu tea : Tensor) (i : ℕ)
    (hi : i < stu.length) (hit : i < tea.length) (hne : stu.getD i [] ≠ []) :
    listMean ((align_scale stu tea).getD i []) = listMean (tea.getD i [])
    ∧ listStd ((align_scale stu tea).getD i [])
        = listStd (tea.getD i [])
            * (listStd (stu.getD i []) / (listStd (stu.getD i []) + 1 / 1000000)) := by
  have hz := getD_zipWith alignChannel [] [] [] stu tea i hi hit
  rw [show align_scale stu tea = List.zipWith alignChannel stu tea from rfl, hz]
  exact ⟨alignChannel_mean _ _ hne, alignChannel_std _ _ hne⟩

/-- Witness for C4 on a concrete one-channel pair. -/
theorem c4_align_scale_statistics_witness :
    listMean ((align_scale [[0, 1, 2]] [[0, 2, 4]]).getD 0 [])
        = listMean [(0 : ℝ), 2, 4]
    ∧ listStd ((align_scale [[0, 1, 2]] [[0, 2, 4]]).getD 0 [])
        = listStd [(0 : ℝ), 2, 4]
            * (listStd [(0 : ℝ), 1, 2] / (listStd [(0 : ℝ), 1, 2] + 1 / 1000000)) :=
  c4_align_scale_statistics [[0, 1, 2]] [[0, 2, 4]] 0
    (by decide) (by decide) (by simp)

/-- Counterexample to C4 as stated: on the concrete channel pair
([0, 1, 2], [0, 2, 4]) the aligned channel does not have the teacher
standard deviation (it is 2 / (1 + 1e-6), not 2). -/
theorem c4_exact_std_counterexample :
    ¬ (listMean ((align_scale [[0, 1, 2]] [[0, 2, 4]]).getD 0 [])
          = listMean [(0 : ℝ), 2, 4]
       ∧ listStd ((align_scale [[0, 1, 2]] [[0, 2, 4]]).getD 0 [])
          = listStd [(0 : ℝ), 2, 4]) := by
  intro hc
  have h2 := hc.2
  have hz : (align_scale [[(0 : ℝ), 1, 2]] [[(0 : ℝ), 2, 4]]).getD 0 []
      = alignChannel [0, 1, 2] [0, 2, 4] := rfl
  rw [hz] at h2
  have hm1 : listMean [(0 : ℝ), 1, 2] = 1 := by
    simp [listMean]
    norm_num
  have hv1 : listVar [(0 : ℝ), 1, 2] = 1 := by
    simp [listVar, hm1]
    norm_num
  have hs1 : listStd [(0 : ℝ), 1, 2] = 1 := by
    rw [listStd, hv1, Real.sqrt_one]
  have hm2 : listMean [(0 : ℝ), 2, 4] = 2 := by
    simp [listMean]
    norm_num
  have hv2 : listVar [(0 : ℝ), 2, 4] = 4 := by
    simp [listVar, hm2]
    norm_num
  have hs2 : listStd [(0 : ℝ), 2, 4] = 2 := by
    rw [listStd, hv2, show (4 : ℝ) = 2 ^ 2 by norm_num,
      Real.sqrt_sq (by norm_num : (0 : ℝ) ≤ 2)]
  have hstd := alignChannel_std [(0 : ℝ), 1, 2] [(0 : ℝ), 2, 4] (by simp)
  rw [hstd, hs1, hs2] at h2
  norm_num at h2

/-- Claim C6: in the dictionary assembled by `loss_by_feat`, every element
of losses_bbox and losses_dfl is divided by the same factor
new_avg_factor, the `reduce_mean` of the summed per-level average factors
clamped below at 1, and every element of losses_reg_kd is divided by
kd_avg_factor, the plain sum of the per-level regression-KD weight
totals. -/
theorem c6_loss_normalisation (D : Detector S GT Meta)
    (tcs tbp tf cs bp fs rcs rbp : List Tensor) (gts : List GT)
    (metas : List Meta) (ign : Option (List GT))
    (ct : List Tensor × List (List ℤ) × List (List ℝ) × List Tensor × List Tensor × ℝ)
    (af : ℝ) (per : List (ℝ × ℝ × ℝ × ℝ)) (kd : List (ℝ × ℝ × ℝ)) (dd : LossDict)
    (hct : ct = lbfTargets D cs metas gts ign)
    (haf : af = D.reduce_mean ct.2.2.2.2.2)
    (hper : per = supervisedPerLevel D ct.1 cs bp ct.2.1 ct.2.2.1 ct.2.2.2.1 af)
    (hkd : kd = kdPerLevel D tcs tbp rcs rbp ct.2.2.1 af)
    (hd : loss_by_feat D tcs tbp tf cs bp fs rcs rbp gts metas ign = some dd) :
    dictGet dd "loss_bbox"
        = some ((per.map fun p => p.2.1).map fun x => x / newAvgFactor D per)
    ∧ dictGet dd "loss_dfl"
        = some ((per.map fun p => p.2.2.1).map fun x => x / newAvgFactor D per)
    ∧ dictGet dd "loss_reg_kd"
        = some ((kd.map fun p => p.2.1).map fun x =>
            x / kdAvgFactor D tcs tbp rcs rbp ct.2.2.1 af)
    ∧ newAvgFactor D per = max (D.reduce_mean ((per.map fun p => p.2.2.2).sum)) 1
    ∧ kdAvgFactor D tcs tbp rcs rbp ct.2.2.1 af = (kd.map fun p => p.2.2).sum := by
  subst hct haf hper hkd
  unfold loss_by_feat at hd
  split at hd
  · dsimp only at hd
    split at hd
    any_goals exact Option.noConfusion hd
    cases hd
    refine ⟨?_, ?_, ?_, rfl, rfl⟩ <;>
      cases hw : D.with_feat_distill <;>
        simp [loss_by_feat_core, dictGet, hw]
  · exact Option.noConfusion hd

/-- Witness for C6 on a concrete one-level batch. -/
theorem c6_loss_normalisation_witness :
    dictGet lossDict1Ex6 "loss_bbox"
        = some (([((0 : ℝ), (0 : ℝ), (0 : ℝ), (0 : ℝ))].map fun p => p.2.1).map
            fun x => x / newAvgFactor detectorEx1T [(0, 0, 0, 0)])
    ∧ dictGet lossDict1Ex6 "loss_dfl"
        = some (([((0 : ℝ), (0 : ℝ), (0 : ℝ), (0 : ℝ))].map fun p => p.2.2.1).map
            fun x => x / newAvgFactor detectorEx1T [(0, 0, 0, 0)])
    ∧ dictGet lossDict1Ex6 "loss_reg_kd"
        = some (([((0 : ℝ), (0 : ℝ), (regKDWeights [[0]] [1]).sum)].map
            fun p => p.2.1).map
            fun x => x / kdAvgFactor detectorEx1T [[[0]]] [[[0]]] [[[0]]] [[[0]]]
              [[1]] 1)
    ∧ newAvgFactor detectorEx1T [(0, 0, 0, 0)]
        = max (detectorEx1T.reduce_mean
            (([((0 : ℝ), (0 : ℝ), (0 : ℝ), (0 : ℝ))].map fun p => p.2.2.2).sum)) 1
    ∧ kdAvgFactor detectorEx1T [[[0]]] [[[0]]] [[[0]]] [[[0]]] [[1]] 1
        = ([((0 : ℝ), (0 : ℝ), (regKDWeights [[0]] [1]).sum)].map fun p => p.2.2).sum :=
  c6_loss_normalisation detectorEx1T [[[0]]] [[[0]]] [[[0]]] [[[0]]] [[[0]]] [[[0]]]
    [[[0]]] [[[0]]] [] [] none ([[[0]]], [[0]], [[1]], [[[0]]], [[[0]]], 1) 1
    [(0, 0, 0, 0)] [(0, 0, (regKDWeights [[0]] [1]).sum)] lossDict1Ex6
    rfl rfl rfl rfl rfl

end

end CrossKD
